import Mathlib

/-!
A shallow embedding of `src/coffee_analysis.py` (a pandas report script) and
proofs about its aggregation and correlation logic.

Modelling conventions, justified line by line against the source:

* A dataframe is a `List` of structures; row order is the dataframe order.
* `transaction_date` and the `hour` extracted from `transaction_time` are
  already-parsed values (`Nat`); string parsing is I/O outside the core logic.
* Money, prices and weather readings are exact rationals (`ℚ`); the script's
  float arithmetic is modelled exactly, and the one operation that needs a
  square root (the Pearson correlation) lives in `ℝ`.
* A missing value (pandas `NaN` from the left join) is `Option.none`.
  pandas comparisons with `NaN` are false, aggregations skip `NaN`, and
  arithmetic on `NaN` yields `NaN`; each definition notes where this matters.
* `df.groupby(k)` sorts the distinct keys ascending (pandas default
  `sort=True`); `Series.sort_values(ascending=False)` computes a stable
  ascending argsort and reverses it (pandas `nargsort`), which we model as a
  stable insertion sort followed by `List.reverse`.
* `series[a:b]` with an integer index is positional (iloc-like) slicing,
  i.e. `drop a` then `take (b - a)`.
-/

namespace Coffee

/-- One row of the filtered transaction table (source lines 5-9), with the
derived columns `date` and `hour` already computed.  All claims quantify over
arbitrary such rows. -/
structure Transaction where
  transaction_id : Nat
  store_location : String
  date : Nat
  hour : Nat
  transaction_qty : Int
  unit_price : ℚ
  product_category : String
  product_detail : String
deriving DecidableEq

/-- Source line 9: `df['revenue'] = df['transaction_qty'] * df['unit_price']`. -/
def Transaction.revenue (t : Transaction) : ℚ := t.transaction_qty * t.unit_price

/-- One row of the weather table built on source lines 25-29. -/
structure WeatherRow where
  date : Nat
  temperature : ℚ
  rain : ℚ
deriving DecidableEq

/-- One row of the merged table produced by the left join on source line 31:
all transaction columns plus the weather columns, which are `none` when the
transaction's date has no weather row. -/
structure Enriched where
  base : Transaction
  temperature : Option ℚ
  rain : Option ℚ
deriving DecidableEq

def Enriched.revenue (e : Enriched) : ℚ := e.base.revenue

def Enriched.date (e : Enriched) : Nat := e.base.date

def Enriched.hour (e : Enriched) : Nat := e.base.hour

/-- Source line 6: `df = df[df['store_location'] == 'Lower Manhattan']`. -/
def filterStore (ts : List Transaction) : List Transaction :=
  ts.filter (fun t => t.store_location == "Lower Manhattan")

/-- Attach the weather fields of one (optional) weather row to a transaction. -/
def enrichWith (t : Transaction) : Option WeatherRow → Enriched
  | none => ⟨t, none, none⟩
  | some w => ⟨t, some w.temperature, some w.rain⟩

/-- The rows a left merge emits for one left row: one output row per matching
right row (in right-table order), or a single row with null weather fields
when no right row matches. -/
def mergeRow (w : List WeatherRow) (t : Transaction) : List Enriched :=
  match w.filter (fun r => r.date == t.date) with
  | [] => [enrichWith t none]
  | ms => ms.map fun m => enrichWith t (some m)

/-- Source line 31: `df = df.merge(weather_df, on='date', how='left')`.
A left merge emits the per-row matches in left-row order. -/
def mergeLeft (ts : List Transaction) (w : List WeatherRow) : List Enriched :=
  ts.flatMap (mergeRow w)

/-- The ascending-sorted list of distinct keys of `l` under `f`:
`df.groupby(f)` sorts the group keys ascending (pandas default). -/
def sortedKeys [LinearOrder κ] [DecidableEq κ] (f : α → κ) (l : List α) : List κ :=
  ((l.map f).dedup).insertionSort (· ≤ ·)

/-- `l.groupby(f)[val].sum()`: one `(key, sum of val over the key's rows)`
pair per distinct key, keys ascending. -/
def groupSum [LinearOrder κ] [DecidableEq κ] (f : α → κ) (val : α → ℚ) (l : List α) :
    List (κ × ℚ) :=
  (sortedKeys f l).map fun k => (k, ((l.filter fun x => decide (f x = k)).map val).sum)

/-- `Series.sort_values(ascending=False)`: pandas computes a stable ascending
argsort of the values and reverses it, so ties end up in reverse pre-order. -/
def sortValuesDesc (l : List (κ × ℚ)) : List (κ × ℚ) :=
  (l.insertionSort (fun a b => a.2 ≤ b.2)).reverse

/-- Source line 40: `df['revenue'].sum()` on the merged table. -/
def totalRevenue (e : List Enriched) : ℚ := (e.map Enriched.revenue).sum

/-- Source line 50:
`df.groupby('product_category')['revenue'].sum().sort_values(ascending=False)`. -/
def byCategory (e : List Enriched) : List (String × ℚ) :=
  sortValuesDesc (groupSum (fun x => x.base.product_category) Enriched.revenue e)

/-- The per-product revenue sums `df.groupby('product_detail')['revenue'].sum()`
(source line 58, before sorting). -/
def productSums (e : List Enriched) : List (String × ℚ) :=
  groupSum (fun x => x.base.product_detail) Enriched.revenue e

/-- Source line 58: `... .sort_values(ascending=False).head(5)`. -/
def topProducts (e : List Enriched) : List (String × ℚ) :=
  (sortValuesDesc (productSums e)).take 5

/-- Source line 64: `by_hour = df.groupby('hour')['revenue'].sum()`; the index
is the ascending list of distinct hours that actually occur. -/
def byHour (e : List Enriched) : List (Nat × ℚ) :=
  groupSum (fun x => x.base.hour) Enriched.revenue e

/-- Source line 70: `by_hour[7:12].sum()`.  On an integer-indexed Series,
`[7:12]` is positional, so this sums entries 7..11 of the hour-sorted list,
not the hours 7..11 themselves. -/
def morningRush (e : List Enriched) : ℚ :=
  ((((byHour e).drop 7).take 5).map Prod.snd).sum

/-- Source line 71: `by_hour[12:18].sum()` (positions 12..17). -/
def afternoonSum (e : List Enriched) : ℚ :=
  ((((byHour e).drop 12).take 6).map Prod.snd).sum

/-- Source line 72: `by_hour[18:].sum()` (positions 18..end). -/
def eveningSum (e : List Enriched) : ℚ :=
  (((byHour e).drop 18).map Prod.snd).sum

section Grouping

variable {α : Type _} {κ : Type _}

/-- Splitting a sum over a list by a Boolean predicate. -/
theorem sum_map_filter_add (p : α → Bool) (val : α → ℚ) (l : List α) :
    ((l.filter p).map val).sum + ((l.filter fun a => !(p a)).map val).sum
      = (l.map val).sum := by
  induction l with
  | nil => simp
  | cons a l ih =>
    by_cases h : p a = true <;>
      simp only [List.filter_cons, h, Bool.not_true, Bool.not_false, if_true, if_false,
        Bool.false_eq_true, List.map_cons, List.sum_cons] <;>
      simp only [← ih] <;> ring

/-- Summing the per-key sums over any duplicate-free list of keys covering `l`
recovers the total sum: grouping partitions the rows. -/
theorem sum_over_keys (f : α → κ) [DecidableEq κ] (val : α → ℚ) :
    ∀ (ks : List κ) (l : List α), (∀ x ∈ l, f x ∈ ks) → ks.Nodup →
      (ks.map fun k => ((l.filter fun x => decide (f x = k)).map val).sum).sum
        = (l.map val).sum := by
  intro ks
  induction ks with
  | nil =>
    intro l hks _
    have hl : l = [] := by
      cases l with
      | nil => rfl
      | cons a l => exact absurd (hks a (by simp)) (by simp)
    subst hl; simp
  | cons k ks ih =>
    intro l hks hnd
    have hknotin : k ∉ ks := (List.nodup_cons.mp hnd).1
    have hnd' : ks.Nodup := (List.nodup_cons.mp hnd).2
    simp only [List.map_cons, List.sum_cons]
    rw [← sum_map_filter_add (fun x => decide (f x = k)) val l]
    have hcong : (ks.map fun kk => ((l.filter fun x => decide (f x = kk)).map val).sum)
        = ks.map fun kk =>
            (((l.filter fun a => !(decide (f a = k))).filter fun x => decide (f x = kk)).map
              val).sum := by
      refine List.map_congr_left ?_
      intro kk hkk
      have hne : kk ≠ k := fun h => hknotin (h ▸ hkk)
      have hfilt : (l.filter fun x => decide (f x = kk))
          = ((l.filter fun a => !(decide (f a = k))).filter fun x => decide (f x = kk)) := by
        rw [List.filter_filter]
        refine List.filter_congr ?_
        intro x _
        cases hx : decide (f x = kk) with
        | false => simp [hx]
        | true =>
          have hfx : f x = kk := of_decide_eq_true hx
          simp [hfx, hne]
      rw [hfilt]
    rw [hcong, ih ((l.filter fun a => !(decide (f a = k))))]
    · intro x hx
      have hmem := List.mem_filter.mp hx
      have hne : f x ≠ k := by
        have := hmem.2
        simpa using this
      have := hks x hmem.1
      simpa [hne] using this
    · exact hnd'

theorem mem_sortedKeys [LinearOrder κ] [DecidableEq κ] (f : α → κ) (l : List α)
    (x : α) (hx : x ∈ l) : f x ∈ sortedKeys f l := by
  unfold sortedKeys
  rw [List.mem_insertionSort, List.mem_dedup]
  exact List.mem_map_of_mem f hx

theorem nodup_sortedKeys [LinearOrder κ] [DecidableEq κ] (f : α → κ) (l : List α) :
    (sortedKeys f l).Nodup :=
  ((List.perm_insertionSort _ _).nodup_iff).mpr (List.nodup_dedup _)

theorem length_sortedKeys [LinearOrder κ] [DecidableEq κ] (f : α → κ) (l : List α) :
    (sortedKeys f l).length = (l.map f).dedup.length :=
  (List.perm_insertionSort _ _).length_eq

/-- The values of a grouped sum add up to the ungrouped sum. -/
theorem groupSum_snd_sum [LinearOrder κ] [DecidableEq κ] (f : α → κ) (val : α → ℚ)
    (l : List α) : ((groupSum f val l).map Prod.snd).sum = (l.map val).sum := by
  unfold groupSum
  rw [List.map_map]
  exact sum_over_keys f val (sortedKeys f l) l (mem_sortedKeys f l) (nodup_sortedKeys f l)

/-- Reversing a stable sort does not change the multiset, hence not the sum. -/
theorem sortValuesDesc_snd_sum (l : List (κ × ℚ)) :
    ((sortValuesDesc l).map Prod.snd).sum = (l.map Prod.snd).sum := by
  have hperm : List.Perm (sortValuesDesc l) l := by
    unfold sortValuesDesc
    exact ((l.insertionSort (fun a b => a.2 ≤ b.2)).reverse_perm).trans
      (List.perm_insertionSort _ l)
  exact (hperm.map Prod.snd).sum_eq

end Grouping

theorem byCategory_snd_sum (e : List Enriched) :
    ((byCategory e).map Prod.snd).sum = totalRevenue e := by
  unfold byCategory
  rw [sortValuesDesc_snd_sum, groupSum_snd_sum]
  rfl

theorem byHour_snd_sum (e : List Enriched) :
    ((byHour e).map Prod.snd).sum = totalRevenue e := by
  unfold byHour
  rw [groupSum_snd_sum]
  rfl

/-- C5: for every EnrichedTransaction sequence, the per-category revenue
totals and the per-hour revenue totals each sum to the total revenue of the
sequence — category and hour each partition the rows. -/
theorem category_and_hour_sums_equal_total (e : List Enriched) :
    ((byCategory e).map Prod.snd).sum = totalRevenue e ∧
    ((byHour e).map Prod.snd).sum = totalRevenue e :=
  ⟨byCategory_snd_sum e, byHour_snd_sum e⟩

/-- The four positional slices `[0:7)`, `[7:12)`, `[12:18)`, `[18:]` cover any
list of hour/revenue pairs exactly once. -/
theorem slice_sums_cover (l : List (Nat × ℚ)) :
    ((l.take 7).map Prod.snd).sum + (((l.drop 7).take 5).map Prod.snd).sum
      + (((l.drop 12).take 6).map Prod.snd).sum + ((l.drop 18).map Prod.snd).sum
      = (l.map Prod.snd).sum := by
  have h7 : (l.map Prod.snd).sum
      = ((l.take 7).map Prod.snd).sum + ((l.drop 7).map Prod.snd).sum := by
    conv_lhs => rw [← List.take_append_drop 7 l]
    rw [List.map_append, List.sum_append]
  have hdd5 : (l.drop 7).drop 5 = l.drop 12 := by
    rw [List.drop_drop]
  have h12 : ((l.drop 7).map Prod.snd).sum
      = (((l.drop 7).take 5).map Prod.snd).sum + ((l.drop 12).map Prod.snd).sum := by
    conv_lhs => rw [← List.take_append_drop 5 (l.drop 7)]
    rw [List.map_append, List.sum_append, hdd5]
  have hdd6 : (l.drop 12).drop 6 = l.drop 18 := by
    rw [List.drop_drop]
  have h18 : ((l.drop 12).map Prod.snd).sum
      = (((l.drop 12).take 6).map Prod.snd).sum + ((l.drop 18).map Prod.snd).sum := by
    conv_lhs => rw [← List.take_append_drop 6 (l.drop 12)]
    rw [List.map_append, List.sum_append, hdd6]
  linarith

/-- C1 (amended): the "morning", "afternoon" and "evening" sums are the
positional slices `[7:12)`, `[12:18)` and `[18:]` of the hour-ascending
per-hour revenue list (they coincide with the hour buckets `[7,12)`,
`[12,18)`, `[18,24)` only when every hour `0..23` occurs in the data), and
together with the sum of the first seven entries of that list they account
for the total revenue of the sequence. -/
theorem bucket_sums_account_for_total (e : List Enriched) :
    morningRush e + afternoonSum e + eveningSum e
      + (((byHour e).take 7).map Prod.snd).sum = totalRevenue e := by
  have h := slice_sums_cover (byHour e)
  have htot := byHour_snd_sum e
  unfold morningRush afternoonSum eveningSum
  linarith

/-- A one-row input used to refute C1 as stated: a single transaction at hour
0 with revenue 5. -/
def cexC1 : List Enriched :=
  [⟨⟨1, "Lower Manhattan", 0, 0, 1, 5, "Tea", "Green Tea"⟩, none, none⟩]

/-- C1 (counterexample): on a sequence whose only transaction happens at hour
0 (with revenue 5), the three time-bucket sums are all 0, so they do not add
up to the total revenue as the claim states. -/
theorem bucket_sums_counterexample :
    ¬ (morningRush cexC1 + afternoonSum cexC1 + eveningSum cexC1 = totalRevenue cexC1) := by
  have hbh : byHour cexC1 = [(0, 5)] := by
    simp [byHour, groupSum, sortedKeys, cexC1, List.insertionSort, List.orderedInsert,
      List.dedup_nil, List.dedup_cons_of_not_mem, Enriched.revenue, Transaction.revenue,
      Enriched.hour]
  simp only [morningRush, afternoonSum, eveningSum, totalRevenue, hbh, cexC1,
    List.map_cons, List.map_nil, List.drop, List.take, List.sum_cons, List.sum_nil]
  simp [Enriched.revenue, Transaction.revenue]

/-- One row of the `daily` table built on source lines 76-82 and renamed on
line 82 to `date, revenue, temperature, rain, transactions`. -/
structure DailyRow where
  date : Nat
  revenue : ℚ
  temperature : Option ℚ
  rain : Option ℚ
  transactions : Nat
deriving DecidableEq

/-- pandas `GroupBy.first` aggregation: the first non-null value of the
column within the group (`first` skips NA by default). -/
def firstSome (l : List (Option ℚ)) : Option ℚ := l.findSome? id

/-- Source lines 76-81: `daily = df.groupby('date').agg({'revenue': 'sum',
'temperature': 'first', 'rain': 'first', 'transaction_id': 'count'})`.
`'count'` counts the non-null `transaction_id` entries of the group;
`transaction_id` is a mandatory CSV column, so this is the group size. -/
def dailyOf (e : List Enriched) : List DailyRow :=
  (sortedKeys Enriched.date e).map fun d =>
    ⟨d, ((e.filter fun x => decide (x.date = d)).map Enriched.revenue).sum,
      firstSome ((e.filter fun x => decide (x.date = d)).map Enriched.temperature),
      firstSome ((e.filter fun x => decide (x.date = d)).map Enriched.rain),
      (e.filter fun x => decide (x.date = d)).length⟩

theorem find?_decide_eq_of_mem {κ : Type _} [DecidableEq κ] (ks : List κ) (d : κ)
    (hd : d ∈ ks) : ks.find? (fun k => decide (k = d)) = some d := by
  induction ks with
  | nil => simp at hd
  | cons k ks ih =>
    by_cases h : k = d
    · subst h
      simp [List.find?_cons]
    · have hk : d ∈ ks := by
        rcases List.mem_cons.mp hd with h1 | h1
        · exact absurd h1.symm h
        · exact h1
      rw [List.find?_cons]
      simp only [decide_eq_false h]
      exact ih hk

/-- C7: for every EnrichedTransaction sequence and every date present in it,
the DailySummary row found for that date has `transactions` equal to the
number of rows with that date, `revenue` equal to the sum of their revenues,
and `temperature`/`rain` equal to the first non-null value seen for that
date. -/
theorem daily_row_matches_spec (e : List Enriched) (d : Nat)
    (hd : d ∈ e.map Enriched.date) :
    (dailyOf e).find? (fun row => decide (row.date = d))
      = some ⟨d, ((e.filter fun x => decide (x.date = d)).map Enriched.revenue).sum,
          firstSome ((e.filter fun x => decide (x.date = d)).map Enriched.temperature),
          firstSome ((e.filter fun x => decide (x.date = d)).map Enriched.rain),
          (e.filter fun x => decide (x.date = d)).length⟩ := by
  unfold dailyOf
  rw [List.find?_map]
  have hmem : d ∈ sortedKeys Enriched.date e := by
    unfold sortedKeys
    rw [List.mem_insertionSort, List.mem_dedup]
    exact hd
  have hfind : (sortedKeys Enriched.date e).find? (fun k => decide (k = d)) = some d :=
    find?_decide_eq_of_mem _ d hmem
  have hcomp : ((fun row : DailyRow => decide (row.date = d)) ∘
      (fun d : Nat =>
        (⟨d, ((e.filter fun x => decide (x.date = d)).map Enriched.revenue).sum,
          firstSome ((e.filter fun x => decide (x.date = d)).map Enriched.temperature),
          firstSome ((e.filter fun x => decide (x.date = d)).map Enriched.rain),
          (e.filter fun x => decide (x.date = d)).length⟩ : DailyRow)))
      = fun k : Nat => decide (k = d) := rfl
  rw [hcomp, hfind]
  rfl

/-- Two transactions on date 3, one of them with null weather fields. -/
def egC7 : List Enriched :=
  [⟨⟨1, "Lower Manhattan", 3, 8, 2, 3, "Coffee", "Latte"⟩, none, none⟩,
   ⟨⟨2, "Lower Manhattan", 3, 9, 1, 5, "Coffee", "Mocha"⟩, some 60, some 0⟩]

/-- C7 (witness): the daily-summary lookup theorem applied to a concrete
two-transaction day. -/
theorem daily_row_matches_spec_witness :
    (dailyOf egC7).find? (fun row => decide (row.date = 3))
      = some ⟨3, ((egC7.filter fun x => decide (x.date = 3)).map Enriched.revenue).sum,
          firstSome ((egC7.filter fun x => decide (x.date = 3)).map Enriched.temperature),
          firstSome ((egC7.filter fun x => decide (x.date = 3)).map Enriched.rain),
          (egC7.filter fun x => decide (x.date = 3)).length⟩ :=
  daily_row_matches_spec egC7 3 (by decide)

/-- Source line 102/103 context: `daily[daily['rain'] > 0]['revenue'].mean()`.
A `NaN` rain value compares false, so null-rain days are not selected; the
mean of an empty selection is NaN (`none`). -/
def optMean (l : List ℚ) : Option ℚ := if l.isEmpty then none else some (l.sum / (l.length : ℚ))

/-- Source line 103: mean revenue over days with `rain > 0`. -/
def rainyMean (d : List DailyRow) : Option ℚ :=
  optMean ((d.filter fun r => r.rain.any fun x => decide (0 < x)).map DailyRow.revenue)

/-- Source line 104: mean revenue over days with `rain == 0` (`NaN == 0` is
false, so null-rain days are again not selected). -/
def clearMean (d : List DailyRow) : Option ℚ :=
  optMean ((d.filter fun r => r.rain.any fun x => decide (x = 0)).map DailyRow.revenue)

/-- Source line 116: `(daily['rain'] > 0).sum()` — the number of days whose
rain value is present and positive. -/
def daysWithRain (d : List DailyRow) : Nat :=
  (d.filter fun r => r.rain.any fun x => decide (0 < x)).length

/-- Source line 115: `daily['rain'].max()` — pandas `max` skips NaN. -/
def rainMax (d : List DailyRow) : Option ℚ := (d.filterMap DailyRow.rain).max?

theorem filter_rain_any_of_isSome (q : ℚ → Bool) (d : List DailyRow) :
    ((d.filter fun r => r.rain.isSome).filter fun r => r.rain.any q)
      = d.filter fun r => r.rain.any q := by
  rw [List.filter_filter]
  refine List.filter_congr ?_
  intro r _
  cases hr : r.rain <;> simp [hr]

theorem filterMap_rain_of_isSome (d : List DailyRow) :
    (d.filter fun r => r.rain.isSome).filterMap DailyRow.rain
      = d.filterMap DailyRow.rain := by
  induction d with
  | nil => rfl
  | cons r d ih =>
    cases hr : r.rain <;>
      simp [List.filter_cons, List.filterMap_cons, hr, ih]

/-- C8: a day whose rain field is null (no weather row matched its date in
the left join) is counted in neither the rainy-day mean, the clear-day mean,
the days-with-rain count, nor the maximum rainfall: each of these statistics
equals its value on the sub-table of days with a non-null rain field. -/
theorem null_rain_days_excluded (d : List DailyRow) :
    rainyMean d = rainyMean (d.filter fun r => r.rain.isSome) ∧
    clearMean d = clearMean (d.filter fun r => r.rain.isSome) ∧
    daysWithRain d = daysWithRain (d.filter fun r => r.rain.isSome) ∧
    rainMax d = rainMax (d.filter fun r => r.rain.isSome) := by
  refine ⟨?_, ?_, ?_, ?_⟩
  · unfold rainyMean
    rw [filter_rain_any_of_isSome]
  · unfold clearMean
    rw [filter_rain_any_of_isSome]
  · unfold daysWithRain
    rw [filter_rain_any_of_isSome]
  · unfold rainMax
    rw [filterMap_rain_of_isSome]

/-- Source line 84: `daily['revenue'].corr(daily['temperature'])` pairs the
two series row by row and drops the pairs with a NaN entry (revenue is never
null, so only a null temperature drops a pair). -/
def tempPairs (d : List DailyRow) : List (ℚ × ℚ) :=
  d.filterMap fun r => r.temperature.map fun t => (r.revenue, t)

/-- Source line 85: `daily['revenue'].corr(daily['rain'])`. -/
def rainPairs (d : List DailyRow) : List (ℚ × ℚ) :=
  d.filterMap fun r => r.rain.map fun t => (r.revenue, t)

def sumX (p : List (ℚ × ℚ)) : ℚ := (p.map Prod.fst).sum

def sumY (p : List (ℚ × ℚ)) : ℚ := (p.map Prod.snd).sum

def sumXY (p : List (ℚ × ℚ)) : ℚ := (p.map fun q => q.1 * q.2).sum

def sumXX (p : List (ℚ × ℚ)) : ℚ := (p.map fun q => q.1 * q.1).sum

def sumYY (p : List (ℚ × ℚ)) : ℚ := (p.map fun q => q.2 * q.2).sum

/-- `n·Σxy - Σx·Σy`: the Pearson numerator scaled by `n²` relative to the
sample covariance; the scaling cancels in the correlation coefficient. -/
def covN (p : List (ℚ × ℚ)) : ℚ := p.length * sumXY p - sumX p * sumY p

/-- `n·Σx² - (Σx)²`: the scaled variance of the first series. -/
def varX (p : List (ℚ × ℚ)) : ℚ := p.length * sumXX p - sumX p * sumX p

/-- `n·Σy² - (Σy)²`: the scaled variance of the second series. -/
def varY (p : List (ℚ × ℚ)) : ℚ := p.length * sumYY p - sumY p * sumY p

/-- Pearson correlation coefficient as pandas computes it:
`r = (n·Σxy - Σx·Σy) / sqrt((n·Σx² - (Σx)²) · (n·Σy² - (Σy)²))`.
When either variance is zero (constant series, or fewer than two pairs) the
float computation yields NaN, modelled as `none`. -/
noncomputable def pearson (p : List (ℚ × ℚ)) : Option ℝ :=
  if varX p = 0 ∨ varY p = 0 then none
  else some ((covN p : ℝ) / Real.sqrt ((varX p : ℝ) * (varY p : ℝ)))

section CauchySchwarz

theorem sum_map_sq_expand (a b : ℚ) (p : List (ℚ × ℚ)) :
    (p.map fun q => (a * q.2 - b * q.1) ^ 2).sum
      = a ^ 2 * (p.map fun q => q.2 * q.2).sum
        - 2 * a * b * (p.map fun q => q.1 * q.2).sum
        + b ^ 2 * (p.map fun q => q.1 * q.1).sum := by
  induction p with
  | nil => simp
  | cons q p ih =>
    simp only [List.map_cons, List.sum_cons, ih]
    ring

/-- Discrete Cauchy–Schwarz over a list of pairs. -/
theorem list_cauchy_schwarz (p : List (ℚ × ℚ)) :
    ((p.map fun q => q.1 * q.2).sum) ^ 2
      ≤ (p.map fun q => q.1 * q.1).sum * (p.map fun q => q.2 * q.2).sum := by
  induction p with
  | nil => simp
  | cons q p ih =>
    have hsq : 0 ≤ (p.map fun r => (q.1 * r.2 - q.2 * r.1) ^ 2).sum := by
      refine List.sum_nonneg ?_
      intro x hx
      rcases List.mem_map.mp hx with ⟨r, _, rfl⟩
      positivity
    rw [sum_map_sq_expand q.1 q.2 p] at hsq
    simp only [List.map_cons, List.sum_cons]
    nlinarith [ih, hsq]

theorem sum_map_const_one (p : List (ℚ × ℚ)) :
    (p.map fun _ => (1 : ℚ)).sum = (p.length : ℚ) := by
  induction p with
  | nil => simp
  | cons q p ih =>
    simp only [List.map_cons, List.sum_cons, ih, List.length_cons]
    push_cast
    ring

theorem sq_sumX_le (p : List (ℚ × ℚ)) : sumX p ^ 2 ≤ (p.length : ℚ) * sumXX p := by
  have h := list_cauchy_schwarz (p.map fun q => (q.1, (1 : ℚ)))
  have e1 : ((p.map fun q => (q.1, (1 : ℚ))).map fun q => q.1 * q.2)
      = p.map fun q => q.1 * 1 := by
    rw [List.map_map]; exact List.map_congr_left fun q _ => rfl
  have e2 : ((p.map fun q => (q.1, (1 : ℚ))).map fun q => q.1 * q.1)
      = p.map fun q => q.1 * q.1 := by
    rw [List.map_map]; exact List.map_congr_left fun q _ => rfl
  have e3 : ((p.map fun q => (q.1, (1 : ℚ))).map fun q => q.2 * q.2)
      = p.map fun _ => (1 : ℚ) * 1 := by
    rw [List.map_map]; exact List.map_congr_left fun q _ => rfl
  rw [e1, e2, e3] at h
  simp only [mul_one] at h
  rw [sum_map_const_one] at h
  have hgoal : (p.map fun q : ℚ × ℚ => q.1).sum ^ 2
      ≤ (p.map fun q => q.1 * q.1).sum * (p.length : ℚ) := h
  unfold sumX sumXX
  calc (p.map Prod.fst).sum ^ 2
      ≤ (p.map fun q => q.1 * q.1).sum * (p.length : ℚ) := hgoal
    _ = (p.length : ℚ) * (p.map fun q => q.1 * q.1).sum := by ring

theorem sq_sumY_le (p : List (ℚ × ℚ)) : sumY p ^ 2 ≤ (p.length : ℚ) * sumYY p := by
  have h := list_cauchy_schwarz (p.map fun q => ((1 : ℚ), q.2))
  have e1 : ((p.map fun q => ((1 : ℚ), q.2)).map fun q => q.1 * q.2)
      = p.map fun q => 1 * q.2 := by
    rw [List.map_map]; exact List.map_congr_left fun q _ => rfl
  have e2 : ((p.map fun q => ((1 : ℚ), q.2)).map fun q => q.1 * q.1)
      = p.map fun _ => (1 : ℚ) * 1 := by
    rw [List.map_map]; exact List.map_congr_left fun q _ => rfl
  have e3 : ((p.map fun q => ((1 : ℚ), q.2)).map fun q => q.2 * q.2)
      = p.map fun q => q.2 * q.2 := by
    rw [List.map_map]; exact List.map_congr_left fun q _ => rfl
  rw [e1, e2, e3] at h
  simp only [one_mul, mul_one] at h
  rw [sum_map_const_one] at h
  have hgoal : (p.map fun q : ℚ × ℚ => q.2).sum ^ 2
      ≤ (p.length : ℚ) * (p.map fun q => q.2 * q.2).sum := h
  unfold sumY sumYY
  exact hgoal

theorem varX_nonneg (p : List (ℚ × ℚ)) : 0 ≤ varX p := by
  have := sq_sumX_le p
  unfold varX
  nlinarith [this]

theorem varY_nonneg (p : List (ℚ × ℚ)) : 0 ≤ varY p := by
  have := sq_sumY_le p
  unfold varY
  nlinarith [this]

/-- The master expansion of a per-row quadratic polynomial into the six
summary sums. -/
theorem sum_map_poly (a b c d e f : ℚ) (p : List (ℚ × ℚ)) :
    (p.map fun q => a * (q.1 * q.1) + b * (q.2 * q.2) + c * (q.1 * q.2)
        + d * q.1 + e * q.2 + f).sum
      = a * sumXX p + b * sumYY p + c * sumXY p + d * sumX p + e * sumY p
        + f * (p.length : ℚ) := by
  induction p with
  | nil => simp [sumXX, sumYY, sumXY, sumX, sumY]
  | cons q p ih =>
    simp only [sumXX, sumYY, sumXY, sumX, sumY, List.map_cons, List.sum_cons,
      List.length_cons] at ih ⊢
    rw [ih]
    push_cast
    ring

theorem centered_sumUV (p : List (ℚ × ℚ)) :
    (p.map fun q => ((p.length : ℚ) * q.1 - sumX p) * ((p.length : ℚ) * q.2 - sumY p)).sum
      = (p.length : ℚ) * covN p := by
  have hc : (p.map fun q => ((p.length : ℚ) * q.1 - sumX p) * ((p.length : ℚ) * q.2 - sumY p))
      = p.map fun q => 0 * (q.1 * q.1) + 0 * (q.2 * q.2)
          + ((p.length : ℚ) * (p.length : ℚ)) * (q.1 * q.2)
          + (-(p.length : ℚ) * sumY p) * q.1 + (-(p.length : ℚ) * sumX p) * q.2
          + sumX p * sumY p := by
    refine List.map_congr_left ?_
    intro q _
    ring
  rw [hc, sum_map_poly]
  unfold covN
  ring

theorem centered_sumUU (p : List (ℚ × ℚ)) :
    (p.map fun q => ((p.length : ℚ) * q.1 - sumX p) * ((p.length : ℚ) * q.1 - sumX p)).sum
      = (p.length : ℚ) * varX p := by
  have hc : (p.map fun q => ((p.length : ℚ) * q.1 - sumX p) * ((p.length : ℚ) * q.1 - sumX p))
      = p.map fun q => ((p.length : ℚ) * (p.length : ℚ)) * (q.1 * q.1) + 0 * (q.2 * q.2)
          + 0 * (q.1 * q.2)
          + (-2 * (p.length : ℚ) * sumX p) * q.1 + 0 * q.2 + sumX p * sumX p := by
    refine List.map_congr_left ?_
    intro q _
    ring
  rw [hc, sum_map_poly]
  unfold varX
  ring

theorem centered_sumVV (p : List (ℚ × ℚ)) :
    (p.map fun q => ((p.length : ℚ) * q.2 - sumY p) * ((p.length : ℚ) * q.2 - sumY p)).sum
      = (p.length : ℚ) * varY p := by
  have hc : (p.map fun q => ((p.length : ℚ) * q.2 - sumY p) * ((p.length : ℚ) * q.2 - sumY p))
      = p.map fun q => 0 * (q.1 * q.1) + ((p.length : ℚ) * (p.length : ℚ)) * (q.2 * q.2)
          + 0 * (q.1 * q.2)
          + 0 * q.1 + (-2 * (p.length : ℚ) * sumY p) * q.2 + sumY p * sumY p := by
    refine List.map_congr_left ?_
    intro q _
    ring
  rw [hc, sum_map_poly]
  unfold varY
  ring

/-- Cauchy–Schwarz for the centered series: the squared covariance numerator
is bounded by the product of the two variance numerators. -/
theorem covN_sq_le (p : List (ℚ × ℚ)) : covN p ^ 2 ≤ varX p * varY p := by
  cases p with
  | nil => simp [covN, varX, varY, sumX, sumY, sumXY, sumXX, sumYY]
  | cons q0 p0 =>
    set p := q0 :: p0 with hp
    have hn : (0 : ℚ) < (p.length : ℚ) := by
      rw [hp]
      simp only [List.length_cons]
      push_cast
      positivity
    have h := list_cauchy_schwarz
      (p.map fun q => ((p.length : ℚ) * q.1 - sumX p, (p.length : ℚ) * q.2 - sumY p))
    have e1 : ((p.map fun q =>
          ((p.length : ℚ) * q.1 - sumX p, (p.length : ℚ) * q.2 - sumY p)).map
            fun q => q.1 * q.2)
        = p.map fun q =>
            ((p.length : ℚ) * q.1 - sumX p) * ((p.length : ℚ) * q.2 - sumY p) := by
      rw [List.map_map]; exact List.map_congr_left fun q _ => rfl
    have e2 : ((p.map fun q =>
          ((p.length : ℚ) * q.1 - sumX p, (p.length : ℚ) * q.2 - sumY p)).map
            fun q => q.1 * q.1)
        = p.map fun q =>
            ((p.length : ℚ) * q.1 - sumX p) * ((p.length : ℚ) * q.1 - sumX p) := by
      rw [List.map_map]; exact List.map_congr_left fun q _ => rfl
    have e3 : ((p.map fun q =>
          ((p.length : ℚ) * q.1 - sumX p, (p.length : ℚ) * q.2 - sumY p)).map
            fun q => q.2 * q.2)
        = p.map fun q =>
            ((p.length : ℚ) * q.2 - sumY p) * ((p.length : ℚ) * q.2 - sumY p) := by
      rw [List.map_map]; exact List.map_congr_left fun q _ => rfl
    rw [e1, e2, e3, centered_sumUV p, centered_sumUU p, centered_sumVV p] at h
    have h2 : (p.length : ℚ) * (p.length : ℚ) * (covN p ^ 2)
        ≤ (p.length : ℚ) * (p.length : ℚ) * (varX p * varY p) := by
      nlinarith [h]
    exact le_of_mul_le_mul_left h2 (mul_pos hn hn)

end CauchySchwarz

/-- DailySummary rows with a constant temperature series: the input that
makes the script print `nan` as the temperature correlation. -/
def dailyConstTemp : List DailyRow :=
  [⟨0, 1, some 50, some 0, 1⟩, ⟨1, 2, some 50, some 0, 1⟩]

/-- C2: for every DailySummary sequence whose revenue and weather series both
have non-zero variance, the Pearson coefficient the script computes lies in
`[-1, 1]`; but when a series is constant the coefficient is NaN (`none`), and
the script has no guard for it — line 87 formats the NaN straight into the
report (`nan`), it never reports "undefined" as the claim states. -/
theorem pearson_bounded_and_nan_on_constant :
    (∀ p : List (ℚ × ℚ), varX p ≠ 0 → varY p ≠ 0 →
      ∃ r : ℝ, pearson p = some r ∧ -1 ≤ r ∧ r ≤ 1) ∧
    pearson (tempPairs dailyConstTemp) = none := by
  constructor
  · intro p hvx hvy
    have hvx0 : 0 < varX p := lt_of_le_of_ne (varX_nonneg p) (Ne.symm hvx)
    have hvy0 : 0 < varY p := lt_of_le_of_ne (varY_nonneg p) (Ne.symm hvy)
    have hvxr : (0 : ℝ) < (varX p : ℝ) := by exact_mod_cast hvx0
    have hvyr : (0 : ℝ) < (varY p : ℝ) := by exact_mod_cast hvy0
    have hs : (0 : ℝ) < Real.sqrt ((varX p : ℝ) * (varY p : ℝ)) :=
      Real.sqrt_pos.mpr (by positivity)
    refine ⟨(covN p : ℝ) / Real.sqrt ((varX p : ℝ) * (varY p : ℝ)), ?_, ?_⟩
    · unfold pearson
      rw [if_neg]
      push_neg
      exact ⟨hvx, hvy⟩
    · have hcov2 : ((covN p : ℝ)) ^ 2 ≤ (varX p : ℝ) * (varY p : ℝ) := by
        have := covN_sq_le p
        have hq : ((covN p ^ 2 : ℚ) : ℝ) ≤ ((varX p * varY p : ℚ) : ℝ) := by
          exact_mod_cast this
        push_cast at hq
        linarith
      have habs : |(covN p : ℝ)| ≤ Real.sqrt ((varX p : ℝ) * (varY p : ℝ)) := by
        rw [← Real.sqrt_sq_eq_abs]
        exact Real.sqrt_le_sqrt hcov2
      have hdiv : |(covN p : ℝ) / Real.sqrt ((varX p : ℝ) * (varY p : ℝ))| ≤ 1 := by
        rw [abs_div, abs_of_nonneg (Real.sqrt_nonneg _)]
        exact (div_le_one hs).mpr habs
      exact abs_le.mp hdiv
  · have hvy : varY (tempPairs dailyConstTemp) = 0 := by
      simp only [tempPairs, dailyConstTemp, List.filterMap_cons, List.filterMap_nil,
        Option.map_some]
      norm_num [varY, sumYY, sumY]
    unfold pearson
    rw [if_pos (Or.inr hvy)]

/-- A two-day input with distinct revenues and temperatures. -/
def pairsC2 : List (ℚ × ℚ) := [(1, 50), (2, 75)]

/-- C2 (witness): the bound applied to a concrete non-degenerate series. -/
theorem pearson_bounded_witness :
    ∃ r : ℝ, pearson pairsC2 = some r ∧ -1 ≤ r ∧ r ≤ 1 :=
  pearson_bounded_and_nan_on_constant.1 pairsC2
    (by norm_num [varX, sumX, sumXX, pairsC2])
    (by norm_num [varY, sumY, sumYY, pairsC2])

/-- Source line 90: `daily[daily['temperature'] < 40]['revenue'].mean()`;
a null temperature compares false and is excluded; an empty selection has a
NaN mean (`none`). -/
def tempColdMean (d : List DailyRow) : Option ℚ :=
  optMean ((d.filter fun r => r.temperature.any fun t => decide (t < 40)).map DailyRow.revenue)

/-- Source line 91: `daily[daily['temperature'] > 70]['revenue'].mean()`. -/
def tempWarmMean (d : List DailyRow) : Option ℚ :=
  optMean ((d.filter fun r => r.temperature.any fun t => decide (70 < t)).map DailyRow.revenue)

/-- Float arithmetic on possibly-NaN operands: the result is NaN (`none`)
when either operand is NaN. -/
def omap2 (f : ℚ → ℚ → ℚ) : Option ℚ → Option ℚ → Option ℚ
  | some a, some b => some (f a b)
  | _, _ => none

/-- The temperature branch of the report (source lines 88-98): which label is
printed and, in the strong case, the four extra numbers that are printed with
it (cold mean, warm mean, `warm - cold`, and `(warm/cold - 1) * 100`). -/
inductive TempReport
  | strong (cold warm diff uplift : Option ℚ)
  | moderate
  | weak
deriving DecidableEq

/-- Source lines 88-98.  A NaN correlation (`none`) fails both `> 0.7` and
`> 0.3` and lands in the weak branch, like Python float NaN.  Line 94 prints
`temp_warm - temp_cold`, with no absolute value. -/
noncomputable def tempReport (d : List DailyRow) : TempReport :=
  match pearson (tempPairs d) with
  | none => .weak
  | some r =>
    if r > 7/10 then
      .strong (tempColdMean d) (tempWarmMean d)
        (omap2 (fun w c => w - c) (tempWarmMean d) (tempColdMean d))
        (omap2 (fun w c => (w / c - 1) * 100) (tempWarmMean d) (tempColdMean d))
    else if r > 3/10 then .moderate
    else .weak

/-- The decision table exactly as claim C3 words it, in particular reporting
the "absolute difference" of the warm and cold means. -/
noncomputable def tempTableClaimed (r : ℝ) (d : List DailyRow) : TempReport :=
  if r > 7/10 then
    .strong (tempColdMean d) (tempWarmMean d)
      (omap2 (fun w c => |w - c|) (tempWarmMean d) (tempColdMean d))
      (omap2 (fun w c => (w / c - 1) * 100) (tempWarmMean d) (tempColdMean d))
  else if 3/10 < r ∧ r ≤ 7/10 then .moderate
  else .weak

/-- Claim C3's decision table amended minimally: the strong branch reports
the signed difference `warm - cold` (possibly negative), not its absolute
value. -/
noncomputable def tempTableAmended (r : ℝ) (d : List DailyRow) : TempReport :=
  if r > 7/10 then
    .strong (tempColdMean d) (tempWarmMean d)
      (omap2 (fun w c => w - c) (tempWarmMean d) (tempColdMean d))
      (omap2 (fun w c => (w / c - 1) * 100) (tempWarmMean d) (tempColdMean d))
  else if 3/10 < r ∧ r ≤ 7/10 then .moderate
  else .weak

theorem tempReport_eq_of_some {d : List DailyRow} {r : ℝ}
    (h : pearson (tempPairs d) = some r) :
    tempReport d = if r > 7/10 then
      TempReport.strong (tempColdMean d) (tempWarmMean d)
        (omap2 (fun w c => w - c) (tempWarmMean d) (tempColdMean d))
        (omap2 (fun w c => (w / c - 1) * 100) (tempWarmMean d) (tempColdMean d))
    else if r > 3/10 then .moderate
    else .weak := by
  unfold tempReport
  rw [h]

/-- C3 (amended): whenever the temperature correlation is defined (`some r`),
the strong/moderate/weak classification follows the claimed first-match
decision table — `r > 0.70` strong with cold mean, warm mean, difference and
percentage uplift `(warm/cold - 1)*100`; `0.30 < r ≤ 0.70` moderate;
otherwise weak — except that the difference is reported as `warm - cold`
(possibly negative), not as an absolute difference. -/
theorem temp_report_follows_amended_table (d : List DailyRow) (r : ℝ)
    (h : pearson (tempPairs d) = some r) :
    tempReport d = tempTableAmended r d := by
  rw [tempReport_eq_of_some h]
  unfold tempTableAmended
  by_cases h7 : r > 7/10
  · rw [if_pos h7, if_pos h7]
  · rw [if_neg h7, if_neg h7]
    by_cases h3 : r > 3/10
    · rw [if_pos h3, if_pos ⟨h3, le_of_not_lt h7⟩]
    · rw [if_neg h3, if_neg fun hc => h3 hc.1]

/-- The rain branch of the report (source lines 100-111): the label and, in
the weak case only, the rainy mean, clear mean and their absolute
difference. -/
inductive RainReport
  | weak (rainy clear diff : Option ℚ)
  | negative
  | positive
deriving DecidableEq

/-- Source lines 101-111.  A NaN correlation fails both `abs(r) < 0.2` and
`r < 0` and lands in the `positive` branch (Python float NaN semantics).
Line 107 prints `abs(no_rain - rainy)`. -/
noncomputable def rainReport (d : List DailyRow) : RainReport :=
  match pearson (rainPairs d) with
  | none => .positive
  | some r =>
    if |r| < 1/5 then
      .weak (rainyMean d) (clearMean d)
        (omap2 (fun nr ry => |nr - ry|) (clearMean d) (rainyMean d))
    else if r < 0 then .negative
    else .positive

/-- The decision table exactly as claim C4 words it: first match of
`|r| < 0.20` → weak, additionally reporting the rainy-day mean, the clear-day
mean and their absolute difference; else `r < 0` → negative; else positive.
The means appear only in the weak constructor, matching the claim's "reported
only in the weak case". -/
noncomputable def rainTableClaimed (r : ℝ) (d : List DailyRow) : RainReport :=
  if |r| < 1/5 then
    .weak (rainyMean d) (clearMean d)
      (omap2 (fun nr ry => |nr - ry|) (clearMean d) (rainyMean d))
  else if r < 0 then .negative
  else .positive

/-- C4: whenever the rain correlation is defined (`some r`), the rain
classification and its weak-case extras follow the claimed first-match
decision table, and the rainy/clear means are reported only in the weak
case. -/
theorem rain_report_follows_table (d : List DailyRow) (r : ℝ)
    (h : pearson (rainPairs d) = some r) :
    rainReport d = rainTableClaimed r d := by
  unfold rainReport rainTableClaimed
  rw [h]

/-- Crossing a positive threshold `c` by the correlation coefficient is
equivalent to a rational inequality on the covariance and variance
numerators. -/
theorem pearson_gt_of (p : List (ℚ × ℚ)) (c : ℚ) (hvx : 0 < varX p)
    (hvy : 0 < varY p) (hcov : 0 < covN p)
    (hsq : c ^ 2 * (varX p * varY p) < covN p ^ 2) :
    (c : ℝ) < (covN p : ℝ) / Real.sqrt ((varX p : ℝ) * (varY p : ℝ)) := by
  have hvxr : (0 : ℝ) < (varX p : ℝ) := by exact_mod_cast hvx
  have hvyr : (0 : ℝ) < (varY p : ℝ) := by exact_mod_cast hvy
  have hvp : (0 : ℝ) < (varX p : ℝ) * (varY p : ℝ) := mul_pos hvxr hvyr
  have hs : 0 < Real.sqrt ((varX p : ℝ) * (varY p : ℝ)) := Real.sqrt_pos.mpr hvp
  rw [lt_div_iff₀ hs]
  have hcovr : (0 : ℝ) ≤ (covN p : ℝ) := by exact_mod_cast le_of_lt hcov
  have h2 : ((c : ℝ) * Real.sqrt ((varX p : ℝ) * (varY p : ℝ))) ^ 2 < (covN p : ℝ) ^ 2 := by
    rw [mul_pow, Real.sq_sqrt (le_of_lt hvp)]
    have hcast : ((c ^ 2 * (varX p * varY p) : ℚ) : ℝ) < ((covN p ^ 2 : ℚ) : ℝ) := by
      exact_mod_cast hsq
    push_cast at hcast
    linarith
  exact lt_of_pow_lt_pow_left₀ 2 hcovr h2

theorem filterMap_replicate_some {α β : Type _} (f : α → Option β) (a : α) (b : β)
    (h : f a = some b) : ∀ n : ℕ, (List.replicate n a).filterMap f = List.replicate n b
  | 0 => rfl
  | n + 1 => by
    simp [List.replicate_succ, List.filterMap_cons, h, filterMap_replicate_some f a b h n]

theorem filter_replicate_false {α : Type _} (p : α → Bool) (a : α) (h : p a = false) :
    ∀ n : ℕ, (List.replicate n a).filter p = []
  | 0 => rfl
  | n + 1 => by
    simp [List.replicate_succ, List.filter_cons, h, filter_replicate_false p a h n]

/-- An 82-day DailySummary table: forty cool zero-revenue days, forty mild
1000-revenue days, one cold day (30°F, revenue 100) and one warm day (80°F,
revenue 99).  Its revenue/temperature correlation is strongly positive while
the warm-day mean revenue (99) is below the cold-day mean revenue (100). -/
def cexC3 : List DailyRow :=
  List.replicate 40 ⟨0, 0, some 50, some 0, 1⟩
    ++ List.replicate 40 ⟨0, 1000, some 60, some 0, 1⟩
    ++ [⟨0, 100, some 30, some 0, 1⟩, ⟨0, 99, some 80, some 0, 1⟩]

theorem tempPairs_cexC3 :
    tempPairs cexC3 = List.replicate 40 ((0 : ℚ), (50 : ℚ))
      ++ List.replicate 40 ((1000 : ℚ), (60 : ℚ))
      ++ [((100 : ℚ), (30 : ℚ)), ((99 : ℚ), (80 : ℚ))] := by
  unfold tempPairs cexC3
  rw [List.filterMap_append, List.filterMap_append,
    filterMap_replicate_some (fun r : DailyRow => r.temperature.map fun t => (r.revenue, t))
      (⟨0, 0, some 50, some 0, 1⟩ : DailyRow) ((0 : ℚ), (50 : ℚ)) rfl,
    filterMap_replicate_some (fun r : DailyRow => r.temperature.map fun t => (r.revenue, t))
      (⟨0, 1000, some 60, some 0, 1⟩ : DailyRow) ((1000 : ℚ), (60 : ℚ)) rfl]
  rfl

theorem covN_cexC3 : covN (tempPairs cexC3) = 16397950 := by
  rw [tempPairs_cexC3]
  norm_num [covN, sumXY, sumX, sumY, List.map_append, List.map_replicate,
    List.sum_append, List.sum_replicate, List.length_append, List.length_replicate,
    nsmul_eq_mul]

theorem varX_cexC3 : varX (tempPairs cexC3) = 1665664081 := by
  rw [tempPairs_cexC3]
  norm_num [varX, sumXX, sumX, List.map_append, List.map_replicate,
    List.sum_append, List.sum_replicate, List.length_append, List.length_replicate,
    nsmul_eq_mul]

theorem varY_cexC3 : varY (tempPairs cexC3) = 266500 := by
  rw [tempPairs_cexC3]
  norm_num [varY, sumYY, sumY, List.map_append, List.map_replicate,
    List.sum_append, List.sum_replicate, List.length_append, List.length_replicate,
    nsmul_eq_mul]

/-- The correlation coefficient of `cexC3`, written out as the script
computes it. -/
noncomputable def rC3 : ℝ :=
  (covN (tempPairs cexC3) : ℝ)
    / Real.sqrt ((varX (tempPairs cexC3) : ℝ) * (varY (tempPairs cexC3) : ℝ))

theorem pearson_cexC3 : pearson (tempPairs cexC3) = some rC3 := by
  have hne : ¬ (varX (tempPairs cexC3) = 0 ∨ varY (tempPairs cexC3) = 0) := by
    rw [varX_cexC3, varY_cexC3]
    norm_num
  unfold pearson rC3
  rw [if_neg hne]

theorem rC3_gt : (7 / 10 : ℝ) < rC3 := by
  have h := pearson_gt_of (tempPairs cexC3) (7 / 10)
    (by rw [varX_cexC3]; norm_num) (by rw [varY_cexC3]; norm_num)
    (by rw [covN_cexC3]; norm_num)
    (by rw [covN_cexC3, varX_cexC3, varY_cexC3]; norm_num)
  have hco : ((7 / 10 : ℚ) : ℝ) = (7 / 10 : ℝ) := by norm_num
  rw [hco] at h
  unfold rC3
  exact h

theorem tempColdMean_cexC3 : tempColdMean cexC3 = some 100 := by
  unfold tempColdMean cexC3
  rw [List.filter_append, List.filter_append,
    filter_replicate_false (fun r : DailyRow => r.temperature.any fun t => decide (t < 40))
      (⟨0, 0, some 50, some 0, 1⟩ : DailyRow) (by decide),
    filter_replicate_false (fun r : DailyRow => r.temperature.any fun t => decide (t < 40))
      (⟨0, 1000, some 60, some 0, 1⟩ : DailyRow) (by decide)]
  norm_num [List.filter_cons, optMean, Option.any_some]

theorem tempWarmMean_cexC3 : tempWarmMean cexC3 = some 99 := by
  unfold tempWarmMean cexC3
  rw [List.filter_append, List.filter_append,
    filter_replicate_false (fun r : DailyRow => r.temperature.any fun t => decide (70 < t))
      (⟨0, 0, some 50, some 0, 1⟩ : DailyRow) (by decide),
    filter_replicate_false (fun r : DailyRow => r.temperature.any fun t => decide (70 < t))
      (⟨0, 1000, some 60, some 0, 1⟩ : DailyRow) (by decide)]
  norm_num [List.filter_cons, optMean, Option.any_some]

/-- C3 (counterexample): on the 82-day table `cexC3` the correlation is
strongly positive but the warm-day mean (99) is below the cold-day mean
(100); the script reports the signed difference `-1` where the claim's table
demands the absolute difference `1`, so the claim as stated is false. -/
theorem temp_report_counterexample : tempReport cexC3 ≠ tempTableClaimed rC3 cexC3 := by
  have h7 := rC3_gt
  rw [tempReport_eq_of_some pearson_cexC3]
  unfold tempTableClaimed
  rw [if_pos h7, if_pos h7, tempColdMean_cexC3, tempWarmMean_cexC3]
  norm_num [omap2, TempReport.strong.injEq]

/-- A two-day table with distinct temperatures and revenues (used as the C3
witness input). -/
def egC3 : List DailyRow := [⟨0, 100, some 35, some 0, 1⟩, ⟨1, 500, some 75, some 2, 1⟩]

/-- The correlation coefficient of `egC3`. -/
noncomputable def rEgC3 : ℝ :=
  (covN (tempPairs egC3) : ℝ)
    / Real.sqrt ((varX (tempPairs egC3) : ℝ) * (varY (tempPairs egC3) : ℝ))

theorem pearson_egC3 : pearson (tempPairs egC3) = some rEgC3 := by
  have hne : ¬ (varX (tempPairs egC3) = 0 ∨ varY (tempPairs egC3) = 0) := by
    simp only [tempPairs, egC3, List.filterMap_cons, List.filterMap_nil, Option.map_some']
    norm_num [varX, varY, sumXX, sumYY, sumX, sumY]
  unfold pearson rEgC3
  rw [if_neg hne]

/-- C3 (witness): the amended-table theorem applied to the concrete table
`egC3`, whose correlation is defined. -/
theorem temp_report_follows_amended_table_witness :
    pearson (tempPairs egC3) = some rEgC3 ∧ tempReport egC3 = tempTableAmended rEgC3 egC3 :=
  ⟨pearson_egC3, temp_report_follows_amended_table egC3 rEgC3 pearson_egC3⟩

/-- A two-day table whose rain correlation is defined (used as the C4
witness input). -/
def egC4 : List DailyRow := [⟨0, 1, some 50, some 0, 1⟩, ⟨1, 2, some 50, some 1, 1⟩]

/-- The rain correlation coefficient of `egC4`. -/
noncomputable def rEgC4 : ℝ :=
  (covN (rainPairs egC4) : ℝ)
    / Real.sqrt ((varX (rainPairs egC4) : ℝ) * (varY (rainPairs egC4) : ℝ))

theorem pearson_egC4 : pearson (rainPairs egC4) = some rEgC4 := by
  have hne : ¬ (varX (rainPairs egC4) = 0 ∨ varY (rainPairs egC4) = 0) := by
    simp only [rainPairs, egC4, List.filterMap_cons, List.filterMap_nil, Option.map_some']
    norm_num [varX, varY, sumXX, sumYY, sumX, sumY]
  unfold pearson rEgC4
  rw [if_neg hne]

/-- C4 (witness): the rain decision-table theorem applied to the concrete
table `egC4`, whose rain correlation is defined. -/
theorem rain_report_follows_table_witness :
    pearson (rainPairs egC4) = some rEgC4 ∧ rainReport egC4 = rainTableClaimed rEgC4 egC4 :=
  ⟨pearson_egC4, rain_report_follows_table egC4 rEgC4 pearson_egC4⟩

section TopProducts

variable {α : Type _} {κ : Type _}

theorem pair_sublist_or (a b : α) : ∀ (l : List α), a ∈ l → b ∈ l → a ≠ b →
    [a, b].Sublist l ∨ [b, a].Sublist l := by
  intro l
  induction l with
  | nil => intro h; simp at h
  | cons c tl ih =>
    intro ha hb hne
    rcases List.mem_cons.mp ha with rfl | hatl
    · rcases List.mem_cons.mp hb with rfl | hbtl
      · exact absurd rfl hne
      · exact Or.inl (List.cons_sublist_cons.mpr (List.singleton_sublist.mpr hbtl))
    · rcases List.mem_cons.mp hb with rfl | hbtl
      · exact Or.inr (List.cons_sublist_cons.mpr (List.singleton_sublist.mpr hatl))
      · rcases ih hatl hbtl hne with h | h
        · exact Or.inl (h.cons c)
        · exact Or.inr (h.cons c)

theorem pair_sublist_not_both (a b : α) (hne : a ≠ b) :
    ∀ (l : List α), l.Nodup → [a, b].Sublist l → [b, a].Sublist l → False := by
  intro l
  induction l with
  | nil => intro _ h; cases h
  | cons c tl ih =>
    intro hnd h1 h2
    have hcn : c ∉ tl := (List.nodup_cons.mp hnd).1
    have hnd2 : tl.Nodup := (List.nodup_cons.mp hnd).2
    cases h1 with
    | cons _ h1t =>
      cases h2 with
      | cons _ h2t => exact ih hnd2 h1t h2t
      | cons₂ _ h2t => exact hcn (h1t.subset (by simp))
    | cons₂ _ h1t =>
      cases h2 with
      | cons _ h2t => exact hcn (h2t.subset (by simp))
      | cons₂ _ h2t => exact hne rfl

theorem sortedKeys_pairwise_lt [LinearOrder κ] [DecidableEq κ] (f : α → κ) (l : List α) :
    (sortedKeys f l).Pairwise (· < ·) := by
  have hsorted : (sortedKeys f l).Pairwise (· ≤ ·) := List.sorted_insertionSort _ _
  have hnd : (sortedKeys f l).Pairwise (· ≠ ·) := nodup_sortedKeys f l
  exact (hsorted.and hnd).imp fun h => lt_of_le_of_ne h.1 h.2

theorem productSums_keys_lt (e : List Enriched) :
    (productSums e).Pairwise (fun a b => a.1 < b.1) := by
  unfold productSums groupSum
  refine List.pairwise_map.mpr ?_
  exact (sortedKeys_pairwise_lt _ _).imp fun h => h

/-- The descending value sort is the reverse of a stable ascending sort, so
on a list whose keys strictly increase, value ties come out with strictly
decreasing keys. -/
theorem sortValuesDesc_ties [LinearOrder κ] (L : List (κ × ℚ))
    (hkeys : L.Pairwise (fun a b => a.1 < b.1)) :
    (sortValuesDesc L).Pairwise (fun a b => a.2 = b.2 → b.1 < a.1) := by
  have hndL : L.Nodup := hkeys.imp fun h => by
    intro heq
    rw [heq] at h
    exact lt_irrefl _ h
  unfold sortValuesDesc
  rw [List.pairwise_reverse]
  refine List.pairwise_iff_forall_sublist.mpr ?_
  intro a b hab htie
  have hnds : (L.insertionSort fun x y => x.2 ≤ y.2).Nodup :=
    ((List.perm_insertionSort _ L).nodup_iff).mpr hndL
  have hmema : a ∈ L :=
    (List.perm_insertionSort _ L).mem_iff.mp (hab.subset (by simp))
  have hmemb : b ∈ L :=
    (List.perm_insertionSort _ L).mem_iff.mp (hab.subset (by simp))
  have hne : a ≠ b := by
    intro heq
    have : ([a, b] : List (κ × ℚ)).Nodup := hab.nodup hnds
    simp [heq] at this
  rcases pair_sublist_or a b L hmema hmemb hne with h | h
  · exact List.pairwise_iff_forall_sublist.mp hkeys h
  · have hba : b.2 ≤ a.2 := le_of_eq htie
    have hsb : [b, a].Sublist (L.insertionSort fun x y => x.2 ≤ y.2) :=
      List.pair_sublist_insertionSort hba h
    exact (pair_sublist_not_both a b hne _ hnds hab hsb).elim

end TopProducts

/-- C6 (amended): the top-5 list has length `min 5 (number of distinct
product_detail values)` and is sorted descending by summed revenue; but
revenue ties are *not* broken by input order: the groupby pre-sorts products
alphabetically and the descending value sort reverses that stable order, so
tied products appear in descending (reverse-alphabetical) name order. -/
theorem top_products_amended (e : List Enriched) :
    (topProducts e).length = min 5 ((e.map fun x => x.base.product_detail).dedup.length) ∧
    (topProducts e).Pairwise (fun a b => b.2 ≤ a.2) ∧
    (topProducts e).Pairwise (fun a b => a.2 = b.2 → b.1 < a.1) := by
  haveI : IsTotal (String × ℚ) fun x y => x.2 ≤ y.2 := ⟨fun a b => le_total a.2 b.2⟩
  haveI : IsTrans (String × ℚ) fun x y => x.2 ≤ y.2 :=
    ⟨fun _ _ _ hab hbc => le_trans hab hbc⟩
  refine ⟨?_, ?_, ?_⟩
  · unfold topProducts sortValuesDesc
    rw [List.length_take, List.length_reverse, List.length_insertionSort]
    unfold productSums groupSum
    rw [List.length_map, length_sortedKeys]
  · have hsorted : ((productSums e).insertionSort fun x y => x.2 ≤ y.2).Pairwise
        fun x y : String × ℚ => x.2 ≤ y.2 :=
      List.sorted_insertionSort _ _
    have hrev : (sortValuesDesc (productSums e)).Pairwise
        fun a b : String × ℚ => b.2 ≤ a.2 := by
      unfold sortValuesDesc
      rw [List.pairwise_reverse]
      exact hsorted
    exact hrev.sublist (List.take_sublist 5 _)
  · exact (sortValuesDesc_ties (productSums e) (productSums_keys_lt e)).sublist
      (List.take_sublist 5 _)

/-- Two one-item transactions with equal revenue 5, product "A" appearing
before product "B" in the input. -/
def cexC6 : List Enriched :=
  [⟨⟨1, "Lower Manhattan", 0, 8, 1, 5, "Tea", "A"⟩, none, none⟩,
   ⟨⟨2, "Lower Manhattan", 0, 9, 1, 5, "Tea", "B"⟩, none, none⟩]

/-- C6 (counterexample): with products "A" then "B" tied at revenue 5, the
claim's stable-input-order tie-break predicts `[("A", 5), ("B", 5)]`, but the
script produces `[("B", 5), ("A", 5)]` (alphabetical groupby order, then a
reversed stable ascending sort). -/
theorem top_products_counterexample :
    topProducts cexC6 = [(("B" : String), (5 : ℚ)), ("A", 5)] ∧
    topProducts cexC6 ≠ [(("A" : String), (5 : ℚ)), ("B", 5)] := by
  have hAB : ("A" : String) ≤ "B" := String.le_iff_toList_le.mpr (by decide)
  have hps : productSums cexC6 = [("A", 5), ("B", 5)] := by
    unfold productSums groupSum sortedKeys cexC6
    simp [List.dedup_cons_of_not_mem, List.insertionSort, List.orderedInsert, hAB,
      List.filter_cons, Enriched.revenue, Transaction.revenue]
  have htop : topProducts cexC6 = [("B", 5), ("A", 5)] := by
    unfold topProducts sortValuesDesc
    rw [hps]
    simp [List.insertionSort, List.orderedInsert]
  refine ⟨htop, ?_⟩
  rw [htop]
  simp

section MergeSpec

theorem enrichWith_base (t : Transaction) (o : Option WeatherRow) :
    (enrichWith t o).base = t := by
  cases o <;> rfl

theorem find?_eq_head_filter {β : Type _} (p : β → Bool) (l : List β) :
    l.find? p = (l.filter p).head? := by
  induction l with
  | nil => rfl
  | cons a l ih =>
    cases h : p a with
    | true =>
      simp only [List.find?, List.filter, h]
      rfl
    | false =>
      simp only [List.find?, List.filter, h]
      exact ih

theorem weather_filter_length_le_one (w : List WeatherRow)
    (hw : (w.map WeatherRow.date).Nodup) (d : Nat) :
    (w.filter fun r => r.date == d).length ≤ 1 := by
  induction w with
  | nil => simp
  | cons r w ih =>
    rw [List.map_cons] at hw
    have hw1 : r.date ∉ w.map WeatherRow.date := (List.nodup_cons.mp hw).1
    have hw2 : (w.map WeatherRow.date).Nodup := (List.nodup_cons.mp hw).2
    by_cases h : r.date = d
    · have hnil : (w.filter fun x => x.date == d) = [] := by
        rw [List.filter_eq_nil_iff]
        intro x hx
        simp only [beq_iff_eq]
        intro hxd
        exact hw1 (h ▸ hxd ▸ List.mem_map_of_mem WeatherRow.date hx)
      simp [List.filter_cons, h, hnil]
    · have hb : (r.date == d) = false := beq_eq_false_iff_ne.mpr h
      simp only [List.filter_cons, hb, Bool.false_eq_true, if_false]
      exact ih hw2

theorem mergeRow_of_nodup (w : List WeatherRow) (hw : (w.map WeatherRow.date).Nodup)
    (t : Transaction) :
    mergeRow w t = [enrichWith t (w.find? fun r => r.date == t.date)] := by
  unfold mergeRow
  rw [find?_eq_head_filter]
  cases hfilt : w.filter fun r => r.date == t.date with
  | nil => rfl
  | cons m ms =>
    have hlen := weather_filter_length_le_one w hw t.date
    rw [hfilt] at hlen
    have hms : ms = [] := by
      simp only [List.length_cons] at hlen
      exact List.eq_nil_of_length_eq_zero (Nat.le_zero.mp (Nat.le_of_succ_le_succ hlen))
    subst hms
    rfl

theorem one_le_mergeRow_length (w : List WeatherRow) (t : Transaction) :
    1 ≤ (mergeRow w t).length := by
  unfold mergeRow
  cases hfilt : w.filter fun r => r.date == t.date with
  | nil => simp
  | cons m ms => simp

theorem mergeLeft_length_ge (w : List WeatherRow) :
    ∀ ts : List Transaction, ts.length ≤ (mergeLeft ts w).length := by
  intro ts
  induction ts with
  | nil => simp [mergeLeft]
  | cons t ts ih =>
    unfold mergeLeft at *
    rw [List.flatMap_cons, List.length_append, List.length_cons]
    have h1 := one_le_mergeRow_length w t
    omega

/-- C9: if the weather dates are pairwise distinct, the left join maps each
transaction row, in order, to exactly one enriched row carrying that date's
weather fields (nulls when the date is absent) — in particular the base rows
of the enriched table are exactly the input rows, in order; and if some
transaction's date matches two or more weather rows, the join emits one row
per match and the enriched table is strictly longer than the transaction
table. -/
theorem merge_left_spec :
    (∀ (ts : List Transaction) (w : List WeatherRow), (w.map WeatherRow.date).Nodup →
      mergeLeft ts w = ts.map fun t => enrichWith t (w.find? fun r => r.date == t.date)) ∧
    (∀ (ts : List Transaction) (w : List WeatherRow), (w.map WeatherRow.date).Nodup →
      (mergeLeft ts w).map Enriched.base = ts) ∧
    (∀ (ts : List Transaction) (w : List WeatherRow) (t : Transaction), t ∈ ts →
      2 ≤ (w.filter fun r => r.date == t.date).length →
      ts.length < (mergeLeft ts w).length) := by
  have hmap : ∀ (ts : List Transaction) (w : List WeatherRow),
      (w.map WeatherRow.date).Nodup →
      mergeLeft ts w = ts.map fun t => enrichWith t (w.find? fun r => r.date == t.date) := by
    intro ts w hw
    induction ts with
    | nil => rfl
    | cons t ts ih =>
      unfold mergeLeft at *
      rw [List.flatMap_cons, mergeRow_of_nodup w hw t, List.map_cons, ih]
      rfl
  refine ⟨hmap, ?_, ?_⟩
  · intro ts w hw
    rw [hmap ts w hw, List.map_map]
    have hid : (Enriched.base ∘ fun t => enrichWith t (w.find? fun r => r.date == t.date))
        = (id : Transaction → Transaction) := by
      funext t
      exact enrichWith_base t _
    rw [hid, List.map_id]
  · intro ts w t hmem hfl
    induction ts with
    | nil => simp at hmem
    | cons t0 ts ih =>
      unfold mergeLeft at *
      rw [List.flatMap_cons, List.length_append, List.length_cons]
      rcases List.mem_cons.mp hmem with rfl | htl
      · have h2 : 2 ≤ (mergeRow w t).length := by
          unfold mergeRow
          cases hfilt : w.filter fun r => r.date == t.date with
          | nil => rw [hfilt] at hfl; simp at hfl
          | cons m ms =>
            rw [hfilt] at hfl
            simpa using hfl
        have h3 := mergeLeft_length_ge w ts
        unfold mergeLeft at h3
        omega
      · have h1 := one_le_mergeRow_length w t0
        have h2 := ih htl
        omega

/-- Two transactions (dates 5 and 6) for the C9 witness. -/
def egTs : List Transaction :=
  [⟨1, "Lower Manhattan", 5, 8, 1, 3, "Coffee", "Latte"⟩,
   ⟨2, "Lower Manhattan", 6, 9, 2, 2, "Coffee", "Mocha"⟩]

/-- A weather table with distinct dates 5 and 7 (date 6 absent). -/
def egW : List WeatherRow := [⟨5, 40, 0⟩, ⟨7, 50, 1⟩]

/-- A weather table in which date 5 appears twice. -/
def egWdup : List WeatherRow := [⟨5, 40, 0⟩, ⟨5, 41, 1⟩]

/-- C9 (witness): the join-shape theorem applied to concrete tables — a
duplicate-free weather table preserves the two transaction rows, and a
weather table with date 5 duplicated makes the join strictly longer. -/
theorem merge_left_spec_witness :
    (mergeLeft egTs egW
      = egTs.map fun t => enrichWith t (egW.find? fun r => r.date == t.date)) ∧
    egTs.length < (mergeLeft egTs egWdup).length :=
  ⟨merge_left_spec.1 egTs egW (by decide),
   merge_left_spec.2.2 egTs egWdup ⟨1, "Lower Manhattan", 5, 8, 1, 3, "Coffee", "Latte"⟩
     (by decide) (by decide)⟩

end MergeSpec

/-- Source line 41: `df['revenue'].mean()` (NaN on an empty table). -/
def avgTransaction (e : List Enriched) : Option ℚ := optMean (e.map Enriched.revenue)

/-- Source line 44 helper: the per-date revenue sums
`df.groupby('date')['revenue'].sum()`. -/
def dailyRevenues (e : List Enriched) : List (Nat × ℚ) :=
  groupSum Enriched.date Enriched.revenue e

/-- Source line 52-54: percentage of each category,
`amount / total_rev * 100`. -/
def categoryPcts (e : List Enriched) : List (String × ℚ) :=
  (byCategory e).map fun p => (p.1, p.2 / ((byCategory e).map Prod.snd).sum * 100)

/-- `Series.idxmax` paired with its value: the first entry carrying the
maximum value (pandas keeps the first occurrence on ties). -/
def idxmaxPair {κ : Type _} (l : List (κ × ℚ)) : Option (κ × ℚ) :=
  l.foldl (fun acc p =>
    match acc with
    | none => some p
    | some q => if q.2 < p.2 then some p else some q) none

/-- `Series.idxmin` paired with its value (first occurrence on ties). -/
def idxminPair {κ : Type _} (l : List (κ × ℚ)) : Option (κ × ℚ) :=
  l.foldl (fun acc p =>
    match acc with
    | none => some p
    | some q => if p.2 < q.2 then some p else some q) none

/-- Source lines 113-114: temperature min/max/mean across days (pandas skips
the NaN entries of null-weather days). -/
def tempVals (d : List DailyRow) : List ℚ := d.filterMap DailyRow.temperature

/-- Everything the script computes and emits: the "basic numbers", the three
grouped breakdowns, the bucket sums, the weather block, and the two persisted
tables.  The console report is a fixed formatting of exactly these values
(and `chart.png` a fixed rendering of `byHour`, `byCategory` and `daily`), so
equality of `Output` captures equality of the report text and of
`combined_data.csv`/`daily_summary.csv`.  `by_hour_count` (line 65) is
computed but never printed or saved, so it is not part of the output. -/
structure Output where
  totalTransactions : Nat
  total : ℚ
  avgTx : Option ℚ
  dateMin : Option Nat
  dateMax : Option Nat
  avgDaily : Option ℚ
  busiestDay : Option ℚ
  slowestDay : Option ℚ
  categories : List (String × ℚ)
  categoryShares : List (String × ℚ)
  top5 : List (String × ℚ)
  hours : List (Nat × ℚ)
  peakHour : Option (Nat × ℚ)
  slowHour : Option (Nat × ℚ)
  morning : ℚ
  afternoon : ℚ
  evening : ℚ
  daily : List DailyRow
  corrTemp : Option ℝ
  corrRain : Option ℝ
  tempBlock : TempReport
  rainBlock : RainReport
  tempMin : Option ℚ
  tempMax : Option ℚ
  tempMean : Option ℚ
  maxRain : Option ℚ
  rainDays : Nat
  combined : List Enriched

/-- The whole pipeline, source lines 5-145: filter to the store, derive
columns, left-join the weather, aggregate, classify, and collect every
emitted value. -/
noncomputable def runAll (ts : List Transaction) (w : List WeatherRow) : Output :=
  let e := mergeLeft (filterStore ts) w
  let d := dailyOf e
  { totalTransactions := e.length
    total := totalRevenue e
    avgTx := avgTransaction e
    dateMin := (e.map Enriched.date).min?
    dateMax := (e.map Enriched.date).max?
    avgDaily := optMean ((dailyRevenues e).map Prod.snd)
    busiestDay := ((dailyRevenues e).map Prod.snd).max?
    slowestDay := ((dailyRevenues e).map Prod.snd).min?
    categories := byCategory e
    categoryShares := categoryPcts e
    top5 := topProducts e
    hours := byHour e
    peakHour := idxmaxPair (byHour e)
    slowHour := idxminPair (byHour e)
    morning := morningRush e
    afternoon := afternoonSum e
    evening := eveningSum e
    daily := d
    corrTemp := pearson (tempPairs d)
    corrRain := pearson (rainPairs d)
    tempBlock := tempReport d
    rainBlock := rainReport d
    tempMin := (tempVals d).min?
    tempMax := (tempVals d).max?
    tempMean := optMean (tempVals d)
    maxRain := rainMax d
    rainDays := daysWithRain d
    combined := e }

/-- C10: for fixed transaction-file contents and a fixed weather response,
the whole pipeline is a pure function: two runs on equal input tables compute
equal aggregates, equal report data (hence identical formatted report text)
and equal `combined_data` / `daily_summary` tables. -/
theorem run_deterministic (ts₁ ts₂ : List Transaction) (w₁ w₂ : List WeatherRow)
    (ht : ts₁ = ts₂) (hw : w₁ = w₂) : runAll ts₁ w₁ = runAll ts₂ w₂ := by
  subst ht
  subst hw
  rfl

/-- C10 (witness): two runs on the concrete tables `egTs`/`egW` agree. -/
theorem run_deterministic_witness : runAll egTs egW = runAll egTs egW :=
  run_deterministic egTs egTs egW egW rfl rfl

end Coffee
